import Mathlib

/-!
Shallow embedding of `src/google_maps_scraper.py` (a Google-Maps listing
scraper) and verification of its specification claims.

The browser/DOM collaborator is modelled by explicit environment records
describing what each DOM query would return (element visible, raises, or
yields text); the Python functions become pure Lean functions over those
environments.  Python exceptions are modelled with `Except`/explicit
outcome flags, Python `None` with `Option`.
-/

namespace Scraper

/-! ### Email Resolver: candidate filtering and selection
Embeds the pure selection logic of `extract_email_from_website`
(src/google_maps_scraper.py lines 38-44). -/

/-- Image-asset suffixes filtered out of email matches, exactly the tuple at
line 38 of the source. -/
def IMAGE_SUFFIXES : List String := [".png", ".jpg", ".jpeg", ".gif", ".webp", ".svg"]

/-- High-confidence local-part markers, exactly the tuple at line 42. -/
def PRIORITY_STARTS : List String := ["info@", "contact@", "hello@", "support@"]

/-- ASCII lowering, the fragment of Python `str.lower` exercised by the
ASCII patterns above. -/
def lowerChar (c : Char) : Char :=
  if 65 ≤ c.toNat ∧ c.toNat ≤ 90 then Char.ofNat (c.toNat + 32) else c

def strLower (s : String) : List Char := s.data.map lowerChar

/-- Python `e.lower().endswith(s)` for a lowercase literal `s`. -/
def strEndsWith (e s : String) : Bool :=
  decide ((strLower e).reverse.take s.data.length = s.data.reverse)

/-- Python `e.lower().startswith(s)` for a lowercase literal `s`. -/
def strStartsWith (e s : String) : Bool :=
  decide ((strLower e).take s.data.length = s.data)

/-- Python `e.lower().endswith((...image suffixes...))` (line 38). -/
def isImageEmail (e : String) : Bool :=
  IMAGE_SUFFIXES.any (fun s => strEndsWith e s)

/-- Python `email.lower().startswith(('info@', 'contact@', 'hello@', 'support@'))`
(line 42). -/
def isPriorityEmail (e : String) : Bool :=
  PRIORITY_STARTS.any (fun p => strStartsWith e p)

/-- The `for email in valid_emails: if ...startswith...: return email` loop
(lines 41-43): first candidate with a high-confidence start, if any. -/
def firstPriorityEmail : List String → Option String
  | [] => none
  | e :: rest => if isPriorityEmail e then some e else firstPriorityEmail rest

/-- Lines 38-44 of the source: filter out image-suffixed matches, return the
first high-confidence candidate, else the first remaining candidate, else
`none` (the final `return None` at line 51). -/
def selectEmail (emails : List String) : Option String :=
  let valid_emails := emails.filter (fun e => !isImageEmail e)
  match valid_emails with
  | [] => none
  | first :: _ =>
    match firstPriorityEmail valid_emails with
    | some e => some e
    | none => some first

/-- The selection policy as the spec words it (§4.2): discard image-suffixed
matches, then the first remaining candidate matching a high-confidence
local part, otherwise the first remaining candidate, otherwise absence. -/
def selectEmailPolicy (emails : List String) : Option String :=
  let remaining := emails.filter (fun e => !isImageEmail e)
  match remaining.find? isPriorityEmail with
  | some e => some e
  | none => remaining.head?

theorem firstPriorityEmail_eq_find (l : List String) :
    firstPriorityEmail l = l.find? isPriorityEmail := by
  induction l with
  | nil => rfl
  | cons e rest ih =>
    by_cases h : isPriorityEmail e
    · simp [firstPriorityEmail, List.find?, h]
    · simp [firstPriorityEmail, List.find?, h, ih]

/-! ### Email Resolver: resource model
Embeds `extract_email_from_website` (lines 26-51) operationally.  The
auxiliary page is the resource: `openedPages` counts successful
`context.new_page()` creations, `closedPages` successful `close()` calls on
that page.  Each step of the `try` body may raise (flag set to `false`). -/

structure EmailFetchEnv where
  /-- the `website_url` argument; `none` models a Python falsy/NaN value. -/
  websiteUrl : Option String
  /-- does `page.context.new_page()` succeed? -/
  openOk : Bool
  /-- does `new_page.goto(...)` succeed? -/
  gotoOk : Bool
  /-- does `new_page.content()` succeed? -/
  contentOk : Bool
  /-- the matches `re.findall(EMAIL_REGEX, content)` would produce. -/
  pageEmails : List String
  deriving DecidableEq

structure FetchOutcome where
  result : Except Unit (Option String)
  openedPages : Nat
  closedPages : Nat

structure EmailFetchResult where
  email : Option String
  openedPages : Nat
  closedPages : Nat
  deriving DecidableEq

/-- The `try` body of `extract_email_from_website` (lines 30-44): open the
auxiliary page, navigate, read content, close, then select an email.  An
`error` result models an exception escaping the body; the counters record
how many pages were opened/closed before the exception. -/
def email_fetch_try (env : EmailFetchEnv) : FetchOutcome :=
  if env.openOk = false then ⟨Except.error (), 0, 0⟩
  else if env.gotoOk = false then ⟨Except.error (), 1, 0⟩
  else if env.contentOk = false then ⟨Except.error (), 1, 0⟩
  else ⟨Except.ok (selectEmail env.pageEmails), 1, 1⟩

/-- Embeds `extract_email_from_website` (lines 26-51).  The falsy-URL guard (line
27) returns `None` with no page activity.  The `except` handler (lines
45-50) logs, attempts `new_page.close()` — which succeeds only when a page
was created and is still open (otherwise the nested `try` swallows the
error) — and falls through to `return None`. -/
def extract_email_from_website (env : EmailFetchEnv) : EmailFetchResult :=
  match env.websiteUrl with
  | none => ⟨none, 0, 0⟩
  | some u =>
    if u.isEmpty then ⟨none, 0, 0⟩
    else
      let o := email_fetch_try env
      match o.result with
      | Except.ok r => ⟨r, o.openedPages, o.closedPages⟩
      | Except.error _ =>
        ⟨none, o.openedPages,
          if o.closedPages < o.openedPages then o.closedPages + 1 else o.closedPages⟩

/-! ### Review-count parsing
Embeds lines 89-95: strip `(`, `)`, `,` via `str.replace(x, "")`, collect
digit runs with `re.findall(r'\d+', text)`, join them and convert with
`int`. -/

/-- Embeds `re.findall(r'\d+', _)` on a character list: the maximal runs of digit
characters, in order.  The accumulator holds the current run reversed. -/
def digitRunsAux : List Char → List Char → List (List Char)
  | [], acc => if acc.isEmpty then [] else [acc.reverse]
  | c :: rest, acc =>
    if c.isDigit then digitRunsAux rest (c :: acc)
    else if acc.isEmpty then digitRunsAux rest []
    else acc.reverse :: digitRunsAux rest []

def digitRuns (cs : List Char) : List (List Char) := digitRunsAux cs []

/-- Python `int` on a string of decimal digits. -/
def digitsToNat (cs : List Char) : Nat :=
  cs.foldl (fun n c => n * 10 + (c.toNat - 48)) 0

/-- Lines 91-95: `text.replace("(", "").replace(")", "").replace(",", "")`
(single-character replacements, i.e. character removals), then
`nums = re.findall(r'\d+', text)`, and `int(''.join(nums))` when `nums`
is nonempty; otherwise the field stays absent. -/
def parseReviewCount (text : String) : Option Nat :=
  let cleaned :=
    ((text.data.filter (fun c => c ≠ '(')).filter (fun c => c ≠ ')')).filter
      (fun c => c ≠ ',')
  let nums := digitRuns cleaned
  if nums.isEmpty then none else some (digitsToNat nums.flatten)

theorem digitRunsAux_nil_of_no_digit (cs : List Char)
    (h : ∀ c ∈ cs, c.isDigit = false) : digitRunsAux cs [] = [] := by
  induction cs with
  | nil => rfl
  | cons c rest ih =>
    have hc : c.isDigit = false := h c (List.mem_cons_self c rest)
    simp only [digitRunsAux, hc]
    simp only [List.isEmpty_nil, if_true, if_false, Bool.false_eq_true]
    exact ih (fun d hd => h d (List.mem_cons_of_mem c hd))

/-! ### Field Extractor
Embeds `extract_place_details` (lines 53-134).  Each DOM field lookup
(`page.locator(...).first` + `is_visible()` + `inner_text()` /
`get_attribute`) is described by a `FieldOutcome`: the lookup may raise, the
element may be invisible, or it yields a text value. -/

inductive FieldOutcome where
  /-- some call in the lookup raises an exception. -/
  | raise : FieldOutcome
  /-- the element is absent or `is_visible()` returns `False`. -/
  | invisible : FieldOutcome
  /-- the element is visible and yields this text/attribute value. -/
  | value : String → FieldOutcome
  deriving DecidableEq

structure PlaceEnv where
  /-- does `page.goto(url, ...)` at line 57 time out? (the only goto failure
  modelled; line 58 catches exactly `PlaywrightTimeoutError`). -/
  navTimeout : Bool
  title : FieldOutcome
  rating : FieldOutcome
  reviews : FieldOutcome
  category : FieldOutcome
  address : FieldOutcome
  phone : FieldOutcome
  website : FieldOutcome
  /-- environment for the nested `extract_email_from_website` call; its
  `websiteUrl` is overwritten with the extracted Website field. -/
  emailFetch : EmailFetchEnv
  deriving DecidableEq

/-- The `data` dictionary built by `extract_place_details` (lines 62-72). -/
structure PlaceData where
  companyName : Option String
  phoneNumber : Option String
  email : Option String
  website : Option String
  rating : Option String
  reviewCount : Option Nat
  category : Option String
  address : Option String
  gmapsUrl : String
  deriving DecidableEq

/-- One single-field `try` block (e.g. lines 75-80): on an exception or an
invisible element the field stays `None`; otherwise the text is stored. -/
def fieldBlock : FieldOutcome → Option String
  | FieldOutcome.raise => none
  | FieldOutcome.invisible => none
  | FieldOutcome.value s => some s

/-- The shared Rating / Review Count `try` block (lines 82-97).  Both
extractions live under ONE `except Exception: pass`: an exception while
reading the rating aborts the block before the review count is read, while
an exception while reading the review count leaves the already-assigned
rating in place. -/
def ratingReviewsBlock (r rv : FieldOutcome) : Option String × Option Nat :=
  match r with
  | FieldOutcome.raise => (none, none)
  | _ =>
    let ratingVal := fieldBlock r
    match rv with
    | FieldOutcome.raise => (ratingVal, none)
    | FieldOutcome.invisible => (ratingVal, none)
    | FieldOutcome.value t => (ratingVal, parseReviewCount t)

/-- Embeds `extract_place_details` (lines 53-134).  The navigation timeout is
caught at line 58 (warning only), so the result never depends on
`env.navTimeout`; each field comes from its own guarded block, except
Rating and Review Count which share one; Email is resolved from the
Website field when `extract_email` is set and the Website value is truthy
(line 131). -/
def extract_place_details (env : PlaceEnv) (url : String) (extract_email : Bool) : PlaceData :=
  let rr := ratingReviewsBlock env.rating env.reviews
  let websiteV := fieldBlock env.website
  let emailV :=
    if extract_email then
      match websiteV with
      | some w =>
        if w.isEmpty then none
        else (extract_email_from_website { env.emailFetch with websiteUrl := some w }).email
      | none => none
    else none
  { companyName := fieldBlock env.title
    phoneNumber := fieldBlock env.phone
    email := emailV
    website := websiteV
    rating := rr.1
    reviewCount := rr.2
    category := fieldBlock env.category
    address := fieldBlock env.address
    gmapsUrl := url }

/-! ### Feed Harvester
Embeds `scrape_search_results` (lines 136-216).  Each iteration of the
`while` loop observes one `ScrollSnapshot`: the hrefs of the currently
rendered `a.hfpxzc` anchors, whether the feed container is visible at the
scroll step, whether the scroll `try` block raises, and whether the
end-of-list marker is visible after scrolling. -/

structure ScrollSnapshot where
  /-- Result of `link.get_attribute("href")` for each rendered anchor; `none` models a
  missing attribute (Python `None`). -/
  hrefs : List (Option String)
  /-- Value of `feed_scrollable.is_visible()` at line 188. -/
  feedVisible : Bool
  /-- does the scroll `try` block (lines 189-197) raise before the
  end-of-list check answers? -/
  scrollRaises : Bool
  /-- Value of `end_of_list.is_visible(timeout=1000)` at line 195. -/
  endVisible : Bool
  deriving DecidableEq

/-- The loop-local variables of `scrape_search_results` (lines 157-161). -/
structure HarvestState where
  /-- Mirrors `places`: collected hrefs in append order. -/
  places : List String
  /-- Mirrors `processed_urls`: the seen-set (membership only matters). -/
  processed : List String
  last_places_count : Nat
  consecutive_no_new : Nat
  deriving DecidableEq

inductive StopReason where
  | targetReached : StopReason
  | stagnation : StopReason
  | endOfList : StopReason
  | feedNotFound : StopReason
  | scrollError : StopReason
  /-- model artifact: the snapshot stream ran out with the loop still
  willing to continue. -/
  | outOfSnapshots : StopReason
  deriving DecidableEq

inductive StepResult where
  | next : HarvestState → StepResult
  | stop : HarvestState → StopReason → StepResult
  deriving DecidableEq

/-- The `for link in links` loop (lines 167-173): a falsy (missing or
empty) href is skipped, a seen href is skipped, a new href is added to both
the seen-set and `places`, and the loop breaks as soon as
`len(places) >= max_results`. -/
def addLinks (max_results : Nat) : List (Option String) → HarvestState → HarvestState
  | [], st => st
  | h :: rest, st =>
    match h with
    | none => addLinks max_results rest st
    | some href =>
      if href.isEmpty then addLinks max_results rest st
      else if href ∈ st.processed then addLinks max_results rest st
      else
        let st1 := { st with processed := href :: st.processed, places := st.places ++ [href] }
        if st1.places.length ≥ max_results then st1
        else addLinks max_results rest st1

/-- Lines 178-185: the stagnation bookkeeping.  When the collected count
equals `last_places_count` the no-new counter is incremented; otherwise it
is reset and `last_places_count` is updated. -/
def updateCounters (st : HarvestState) : HarvestState :=
  if st.places.length = st.last_places_count then
    { st with consecutive_no_new := st.consecutive_no_new + 1 }
  else
    { st with consecutive_no_new := 0, last_places_count := st.places.length }

/-- Lines 187-203: the scroll step.  A missing feed container stops the
loop; an exception inside the scroll `try` block is caught and stops the
loop; a visible end-of-list marker stops the loop; otherwise the loop
continues. -/
def scrollPhase (snap : ScrollSnapshot) (st : HarvestState) : StepResult :=
  if snap.feedVisible then
    if snap.scrollRaises then StepResult.stop st StopReason.scrollError
    else if snap.endVisible then StepResult.stop st StopReason.endOfList
    else StepResult.next st
  else StepResult.stop st StopReason.feedNotFound

/-- One body execution of the `while len(places) < max_results` loop
(lines 163-203), after the loop guard has already passed: read and add the
rendered links, break on target reached (line 175), run the stagnation
bookkeeping and break at three consecutive empty iterations (lines
178-184), then scroll (lines 187-203). -/
def harvestStep (max_results : Nat) (snap : ScrollSnapshot) (st : HarvestState) : StepResult :=
  let st1 := addLinks max_results snap.hrefs st
  if st1.places.length ≥ max_results then StepResult.stop st1 StopReason.targetReached
  else
    let st2 := updateCounters st1
    if st2.consecutive_no_new ≥ 3 then StepResult.stop st2 StopReason.stagnation
    else scrollPhase snap st2

/-- The whole `while` loop, with the guard `len(places) < max_results`
checked before each iteration.  The snapshot list plays the role of the
page's successive DOM states; running out of snapshots is a model artifact
reported as `outOfSnapshots`. -/
def harvestLoop (max_results : Nat) : List ScrollSnapshot → HarvestState → HarvestState × StopReason
  | [], st =>
    if st.places.length ≥ max_results then (st, StopReason.targetReached)
    else (st, StopReason.outOfSnapshots)
  | snap :: rest, st =>
    if st.places.length ≥ max_results then (st, StopReason.targetReached)
    else
      match harvestStep max_results snap st with
      | StepResult.stop st1 r => (st1, r)
      | StepResult.next st1 => harvestLoop max_results rest st1

def initialHarvestState : HarvestState := ⟨[], [], 0, 0⟩

/-- Environment of one `scrape_search_results` run. -/
structure SearchEnv where
  /-- does `page.goto(url, ...)` at line 139 time out?  (No `try` around it.) -/
  navTimeout : Bool
  /-- successive DOM states seen by the loop iterations. -/
  snapshots : List ScrollSnapshot
  /-- does `extract_place_details(page, place_url, ...)` raise for this url?
  (line 211; e.g. a non-timeout navigation error). -/
  detailRaises : String → Bool
  /-- the listing page's DOM state for this url. -/
  detailEnv : String → PlaceEnv

inductive PyError where
  | timeout : PyError
  deriving DecidableEq

/-- The extraction loop at lines 207-215: each collected url is processed
in order; an exception during one listing's extraction is caught and that
listing skipped. -/
def extractAll (env : SearchEnv) (extract_email : Bool) : List String → List PlaceData
  | [] => []
  | u :: rest =>
    if env.detailRaises u then extractAll env extract_email rest
    else extract_place_details (env.detailEnv u) u extract_email :: extractAll env extract_email rest

/-- Embeds `scrape_search_results` (lines 136-216).  The navigation at line 139 is
NOT wrapped in a `try`, so a timeout there propagates to the caller
(`Except.error`); otherwise the harvesting loop runs and the collected
hrefs are passed to detail extraction. -/
def scrape_search_results (env : SearchEnv) (max_results : Nat) (extract_email : Bool) :
    Except PyError (List PlaceData) :=
  if env.navTimeout then Except.error PyError.timeout
  else
    let st := (harvestLoop max_results env.snapshots initialHarvestState).1
    Except.ok (extractAll env extract_email st.places)

/-- First-seen-order deduplication, as the spec words it (§4.3 / §8): the
unique non-falsy hrefs of the stream, each kept at its first appearance,
given an initial seen-set. -/
def firstSeenDedupAux (seen : List String) : List (Option String) → List String
  | [] => []
  | none :: rest => firstSeenDedupAux seen rest
  | some h :: rest =>
    if h.isEmpty then firstSeenDedupAux seen rest
    else if h ∈ seen then firstSeenDedupAux seen rest
    else h :: firstSeenDedupAux (h :: seen) rest

/-- The seen-set after consuming a stream of hrefs. -/
def seenAfter (seen : List String) : List (Option String) → List String
  | [] => seen
  | none :: rest => seenAfter seen rest
  | some h :: rest =>
    if h.isEmpty then seenAfter seen rest
    else if h ∈ seen then seenAfter seen rest
    else seenAfter (h :: seen) rest

/-- All hrefs rendered across a snapshot stream, in order. -/
def snapshotHrefs (snaps : List ScrollSnapshot) : List (Option String) :=
  (snaps.map ScrollSnapshot.hrefs).flatten

/-- The hrefs collected by one `scrape_search_results` run, before detail
extraction. -/
def collectedPlaces (env : SearchEnv) (max_results : Nat) : List String :=
  ((harvestLoop max_results env.snapshots initialHarvestState).1).places

/-- Why the harvesting loop of one run stopped. -/
def harvestStopReason (env : SearchEnv) (max_results : Nat) : StopReason :=
  (harvestLoop max_results env.snapshots initialHarvestState).2

/-! ### Helper lemmas about the harvesting loop -/

theorem addLinks_noop (m : Nat) (st : HarvestState) :
    ∀ hrefs : List (Option String),
      (∀ s : String, some s ∈ hrefs → s.isEmpty = true ∨ s ∈ st.processed) →
      addLinks m hrefs st = st := by
  intro hrefs
  induction hrefs with
  | nil => intro _; rfl
  | cons x rest ih =>
    intro h
    have hrec := ih (fun t ht => h t (List.mem_cons_of_mem _ ht))
    cases x with
    | none => simpa [addLinks] using hrec
    | some s =>
      rcases h s (List.mem_cons_self _ _) with he | hm
      · simpa [addLinks, he] using hrec
      · by_cases he : s.isEmpty
        · simpa [addLinks, he] using hrec
        · simpa [addLinks, he, hm] using hrec

theorem addLinks_cons_new (m : Nat) (s : String) (rest : List (Option String))
    (st : HarvestState) (he : ¬s.isEmpty = true) (hm : s ∉ st.processed) :
    addLinks m (some s :: rest) st =
      if st.places.length + 1 ≥ m
      then { st with processed := s :: st.processed, places := st.places ++ [s] }
      else addLinks m rest { st with processed := s :: st.processed, places := st.places ++ [s] } := by
  simp [addLinks, he, hm]

theorem addLinks_below_max (m : Nat) :
    ∀ (hrefs : List (Option String)) (st : HarvestState),
      (addLinks m hrefs st).places.length < m →
      addLinks m hrefs st =
        { st with places := st.places ++ firstSeenDedupAux st.processed hrefs,
                  processed := seenAfter st.processed hrefs } := by
  intro hrefs
  induction hrefs with
  | nil => intro st _; simp [addLinks, firstSeenDedupAux, seenAfter]
  | cons x rest ih =>
    intro st h
    cases x with
    | none =>
      simp only [addLinks] at h ⊢
      simpa [firstSeenDedupAux, seenAfter] using ih st h
    | some s =>
      by_cases he : s.isEmpty
      · simp only [addLinks, he, if_true] at h ⊢
        simpa [firstSeenDedupAux, seenAfter, he] using ih st h
      · by_cases hm : s ∈ st.processed
        · simp only [addLinks, he, hm, if_false, if_true] at h ⊢
          simpa [firstSeenDedupAux, seenAfter, he, hm] using ih st h
        · rw [addLinks_cons_new m s rest st he hm] at h ⊢
          by_cases hlen : st.places.length + 1 ≥ m
          · rw [if_pos hlen] at h
            simp at h
            omega
          · rw [if_neg hlen] at h ⊢
            rw [ih _ h]
            simp [firstSeenDedupAux, seenAfter, he, hm, List.append_assoc]

theorem addLinks_length_le (m : Nat) :
    ∀ (hrefs : List (Option String)) (st : HarvestState),
      st.places.length < m → (addLinks m hrefs st).places.length ≤ m := by
  intro hrefs
  induction hrefs with
  | nil => intro st h; exact Nat.le_of_lt h
  | cons x rest ih =>
    intro st h
    cases x with
    | none => simpa [addLinks] using ih st h
    | some s =>
      by_cases he : s.isEmpty
      · simpa [addLinks, he] using ih st h
      · by_cases hm : s ∈ st.processed
        · simpa [addLinks, he, hm] using ih st h
        · rw [addLinks_cons_new m s rest st he hm]
          by_cases hlen : st.places.length + 1 ≥ m
          · rw [if_pos hlen]
            simp
            omega
          · rw [if_neg hlen]
            exact ih _ (by simp; omega)

theorem addLinks_last_count (m : Nat) :
    ∀ (hrefs : List (Option String)) (st : HarvestState),
      (addLinks m hrefs st).last_places_count = st.last_places_count := by
  intro hrefs
  induction hrefs with
  | nil => intro st; rfl
  | cons x rest ih =>
    intro st
    cases x with
    | none => simpa [addLinks] using ih st
    | some s =>
      by_cases he : s.isEmpty
      · simpa [addLinks, he] using ih st
      · by_cases hm : s ∈ st.processed
        · simpa [addLinks, he, hm] using ih st
        · rw [addLinks_cons_new m s rest st he hm]
          by_cases hlen : st.places.length + 1 ≥ m
          · rw [if_pos hlen]
          · rw [if_neg hlen]
            exact ih _

theorem updateCounters_places (st : HarvestState) :
    (updateCounters st).places = st.places := by
  unfold updateCounters; split <;> rfl

theorem updateCounters_processed (st : HarvestState) :
    (updateCounters st).processed = st.processed := by
  unfold updateCounters; split <;> rfl

theorem harvestStep_next_eq (m : Nat) (snap : ScrollSnapshot) (st st1 : HarvestState)
    (h : harvestStep m snap st = StepResult.next st1) :
    st1 = updateCounters (addLinks m snap.hrefs st)
    ∧ (addLinks m snap.hrefs st).places.length < m := by
  simp only [harvestStep, scrollPhase] at h
  split at h
  · cases h
  · split at h
    · cases h
    · split at h
      · split at h
        · cases h
        · split at h
          · cases h
          · cases h
            exact ⟨rfl, by omega⟩
      · cases h

theorem harvestStep_stop_not_oos (m : Nat) (snap : ScrollSnapshot) (st st1 : HarvestState)
    (r : StopReason) (h : harvestStep m snap st = StepResult.stop st1 r) :
    r ≠ StopReason.outOfSnapshots := by
  simp only [harvestStep, scrollPhase] at h
  split at h
  · cases h; decide
  · split at h
    · cases h; decide
    · split at h
      · split at h
        · cases h; decide
        · split at h
          · cases h; decide
          · cases h
      · cases h; decide

theorem harvestStep_stop_places (m : Nat) (snap : ScrollSnapshot) (st st1 : HarvestState)
    (r : StopReason) (h : harvestStep m snap st = StepResult.stop st1 r) :
    st1.places = (addLinks m snap.hrefs st).places := by
  simp only [harvestStep, scrollPhase] at h
  split at h
  · cases h; rfl
  · split at h
    · cases h; exact updateCounters_places _
    · split at h
      · split at h
        · cases h; exact updateCounters_places _
        · split at h
          · cases h; exact updateCounters_places _
          · cases h
      · cases h; exact updateCounters_places _

theorem firstSeenDedupAux_append (xs ys : List (Option String)) :
    ∀ seen : List String,
      firstSeenDedupAux seen (xs ++ ys)
        = firstSeenDedupAux seen xs ++ firstSeenDedupAux (seenAfter seen xs) ys := by
  induction xs with
  | nil => intro seen; simp [firstSeenDedupAux, seenAfter]
  | cons x rest ih =>
    intro seen
    cases x with
    | none => simpa [firstSeenDedupAux, seenAfter] using ih seen
    | some s =>
      by_cases he : s.isEmpty
      · simpa [firstSeenDedupAux, seenAfter, he] using ih seen
      · by_cases hm : s ∈ seen
        · simpa [firstSeenDedupAux, seenAfter, he, hm] using ih seen
        · simpa [firstSeenDedupAux, seenAfter, he, hm] using ih (s :: seen)

theorem mem_firstSeenDedupAux (h : String) :
    ∀ (xs : List (Option String)) (seen : List String),
      h ∈ firstSeenDedupAux seen xs ↔
        (some h ∈ xs ∧ h.isEmpty = false ∧ h ∉ seen) := by
  intro xs
  induction xs with
  | nil => intro seen; simp [firstSeenDedupAux]
  | cons x rest ih =>
    intro seen
    cases x with
    | none => simp [firstSeenDedupAux, ih]
    | some s =>
      by_cases he : s.isEmpty
      · rw [show firstSeenDedupAux seen (some s :: rest) = firstSeenDedupAux seen rest by
          simp [firstSeenDedupAux, he]]
        rw [ih seen]
        constructor
        · rintro ⟨hx, hy, hz⟩
          exact ⟨List.mem_cons_of_mem _ hx, hy, hz⟩
        · rintro ⟨hx, hy, hz⟩
          rcases List.mem_cons.mp hx with h1 | h1
          · injection h1 with h1
            subst h1
            rw [he] at hy
            cases hy
          · exact ⟨h1, hy, hz⟩
      · by_cases hm : s ∈ seen
        · rw [show firstSeenDedupAux seen (some s :: rest) = firstSeenDedupAux seen rest by
            simp [firstSeenDedupAux, he, hm]]
          rw [ih seen]
          constructor
          · rintro ⟨hx, hy, hz⟩
            exact ⟨List.mem_cons_of_mem _ hx, hy, hz⟩
          · rintro ⟨hx, hy, hz⟩
            rcases List.mem_cons.mp hx with h1 | h1
            · injection h1 with h1
              subst h1
              exact absurd hm hz
            · exact ⟨h1, hy, hz⟩
        · rw [show firstSeenDedupAux seen (some s :: rest)
              = s :: firstSeenDedupAux (s :: seen) rest by
            simp [firstSeenDedupAux, he, hm]]
          constructor
          · intro hx
            rcases List.mem_cons.mp hx with h1 | h1
            · subst h1
              exact ⟨List.mem_cons_self _ _, by simpa using he, hm⟩
            · obtain ⟨hx1, hy1, hz1⟩ := (ih (s :: seen)).mp h1
              exact ⟨List.mem_cons_of_mem _ hx1, hy1,
                fun hc => hz1 (List.mem_cons_of_mem _ hc)⟩
          · rintro ⟨hx, hy, hz⟩
            rcases List.mem_cons.mp hx with h1 | h1
            · injection h1 with h1
              subst h1
              exact List.mem_cons_self _ _
            · by_cases hh : h = s
              · subst hh
                exact List.mem_cons_self _ _
              · refine List.mem_cons_of_mem _ ((ih (s :: seen)).mpr ⟨h1, hy, ?_⟩)
                intro hc
                rcases List.mem_cons.mp hc with hc1 | hc1
                · exact hh hc1
                · exact hz hc1

theorem firstSeenDedupAux_nodup :
    ∀ (xs : List (Option String)) (seen : List String),
      (firstSeenDedupAux seen xs).Nodup := by
  intro xs
  induction xs with
  | nil => intro seen; simp [firstSeenDedupAux]
  | cons x rest ih =>
    intro seen
    cases x with
    | none => simpa [firstSeenDedupAux] using ih seen
    | some s =>
      by_cases he : s.isEmpty
      · simpa [firstSeenDedupAux, he] using ih seen
      · by_cases hm : s ∈ seen
        · simpa [firstSeenDedupAux, he, hm] using ih seen
        · rw [show firstSeenDedupAux seen (some s :: rest)
              = s :: firstSeenDedupAux (s :: seen) rest by
            simp [firstSeenDedupAux, he, hm]]
          refine List.nodup_cons.mpr ⟨fun hmem => ?_, ih (s :: seen)⟩
          have := (mem_firstSeenDedupAux s rest (s :: seen)).mp hmem
          exact this.2.2 (List.mem_cons_self _ _)

theorem seenAfter_append (xs ys : List (Option String)) :
    ∀ seen : List String,
      seenAfter seen (xs ++ ys) = seenAfter (seenAfter seen xs) ys := by
  induction xs with
  | nil => intro seen; simp [seenAfter]
  | cons x rest ih =>
    intro seen
    cases x with
    | none => simpa [seenAfter] using ih seen
    | some s =>
      by_cases he : s.isEmpty
      · simpa [seenAfter, he] using ih seen
      · by_cases hm : s ∈ seen
        · simpa [seenAfter, he, hm] using ih seen
        · simpa [seenAfter, he, hm] using ih (s :: seen)

theorem harvestLoop_oos (m : Nat) :
    ∀ (snaps : List ScrollSnapshot) (st : HarvestState),
      (harvestLoop m snaps st).2 = StopReason.outOfSnapshots →
      (harvestLoop m snaps st).1.places
          = st.places ++ firstSeenDedupAux st.processed (snapshotHrefs snaps)
      ∧ (harvestLoop m snaps st).1.processed
          = seenAfter st.processed (snapshotHrefs snaps) := by
  intro snaps
  induction snaps with
  | nil =>
    intro st h
    by_cases hl : st.places.length ≥ m
    · simp [harvestLoop, hl] at h
    · simp [harvestLoop, hl, snapshotHrefs, firstSeenDedupAux, seenAfter]
  | cons snap rest ih =>
    intro st h
    by_cases hl : st.places.length ≥ m
    · simp [harvestLoop, hl] at h
    · cases hs : harvestStep m snap st with
      | stop st1 r =>
        exfalso
        have hr : (harvestLoop m (snap :: rest) st).2 = r := by
          simp [harvestLoop, hl, hs]
        exact harvestStep_stop_not_oos m snap st st1 r hs (by rw [← hr, h])
      | next st1 =>
        have hloop : harvestLoop m (snap :: rest) st = harvestLoop m rest st1 := by
          simp [harvestLoop, hl, hs]
        rw [hloop] at h ⊢
        obtain ⟨heq, hlt⟩ := harvestStep_next_eq m snap st st1 hs
        have hadd := addLinks_below_max m snap.hrefs st hlt
        have hplz : st1.places = st.places ++ firstSeenDedupAux st.processed snap.hrefs := by
          rw [heq, updateCounters_places, hadd]
        have hprz : st1.processed = seenAfter st.processed snap.hrefs := by
          rw [heq, updateCounters_processed, hadd]
        have hsnap : snapshotHrefs (snap :: rest) = snap.hrefs ++ snapshotHrefs rest := by
          simp [snapshotHrefs]
        obtain ⟨ih1, ih2⟩ := ih st1 h
        constructor
        · rw [ih1, hplz, hprz, hsnap, firstSeenDedupAux_append, List.append_assoc]
        · rw [ih2, hprz, hsnap, seenAfter_append]

theorem extract_place_details_gmapsUrl (env : PlaceEnv) (url : String) (b : Bool) :
    (extract_place_details env url b).gmapsUrl = url := rfl

theorem extractAll_map_gmapsUrl (env : SearchEnv) (b : Bool)
    (hnr : ∀ u : String, env.detailRaises u = false) :
    ∀ us : List String, (extractAll env b us).map PlaceData.gmapsUrl = us := by
  intro us
  induction us with
  | nil => rfl
  | cons u rest ih => simp [extractAll, hnr u, ih, extract_place_details_gmapsUrl]

theorem harvestLoop_length_le (m : Nat) :
    ∀ (snaps : List ScrollSnapshot) (st : HarvestState),
      st.places.length ≤ m → ((harvestLoop m snaps st).1).places.length ≤ m := by
  intro snaps
  induction snaps with
  | nil =>
    intro st h
    by_cases hl : st.places.length ≥ m <;> simpa [harvestLoop, hl] using h
  | cons snap rest ih =>
    intro st h
    by_cases hl : st.places.length ≥ m
    · simpa [harvestLoop, hl] using h
    · have hlt : st.places.length < m := by omega
      cases hs : harvestStep m snap st with
      | stop st1 r =>
        have : (harvestLoop m (snap :: rest) st).1 = st1 := by
          simp [harvestLoop, hl, hs]
        rw [this, harvestStep_stop_places m snap st st1 r hs]
        exact addLinks_length_le m snap.hrefs st hlt
      | next st1 =>
        have : harvestLoop m (snap :: rest) st = harvestLoop m rest st1 := by
          simp [harvestLoop, hl, hs]
        rw [this]
        obtain ⟨heq, hlt1⟩ := harvestStep_next_eq m snap st st1 hs
        exact ih st1 (by rw [heq, updateCounters_places]; omega)

theorem harvestStep_stagnant (m : Nat) (snap : ScrollSnapshot) (st : HarvestState)
    (hm : st.places.length < m) (hnoop : addLinks m snap.hrefs st = st)
    (hl : st.last_places_count = st.places.length) :
    harvestStep m snap st =
      if st.consecutive_no_new + 1 ≥ 3
      then StepResult.stop { st with consecutive_no_new := st.consecutive_no_new + 1 }
            StopReason.stagnation
      else scrollPhase snap { st with consecutive_no_new := st.consecutive_no_new + 1 } := by
  unfold harvestStep
  rw [hnoop, if_neg (Nat.not_le.mpr hm)]
  unfold updateCounters
  rw [if_pos hl.symm]

/-! ## Claim theorems -/

/-- C8 (confirmed): the resolver first discards matches with an image-asset
suffix, then returns the first remaining candidate whose local part starts
with one of info@ / contact@ / hello@ / support@, otherwise the first
remaining candidate, otherwise absence; on
["jobs@x.com", "info@x.com", "sales@x.com"] it returns "info@x.com". -/
theorem email_selection_policy :
    (∀ emails : List String, selectEmail emails = selectEmailPolicy emails)
    ∧ selectEmail ["jobs@x.com", "info@x.com", "sales@x.com"] = some "info@x.com" := by
  constructor
  · intro emails
    simp only [selectEmail, selectEmailPolicy, firstPriorityEmail_eq_find]
    cases emails.filter (fun e => !isImageEmail e) with
    | nil => rfl
    | cons first rest =>
      cases (first :: rest).find? isPriorityEmail with
      | none => rfl
      | some e => rfl
  · decide

/-- C9 (confirmed): the Review Count is computed by stripping parentheses
and commas, extracting all digit runs and concatenating them before integer
conversion: "(1,234 reviews)" yields 1234, and a text with no digits yields
absence. -/
theorem review_count_parsing :
    parseReviewCount "(1,234 reviews)" = some 1234
    ∧ (∀ t : String, (∀ c ∈ t.data, c.isDigit = false) → parseReviewCount t = none) := by
  refine ⟨by decide, fun t h => ?_⟩
  have hclean : ∀ c ∈ (((t.data.filter (fun c => c ≠ '(')).filter
      (fun c => c ≠ ')')).filter (fun c => c ≠ ',')), c.isDigit = false := by
    intro c hc
    exact h c (List.mem_of_mem_filter (List.mem_of_mem_filter (List.mem_of_mem_filter hc)))
  simp only [parseReviewCount, digitRuns]
  rw [digitRunsAux_nil_of_no_digit _ hclean]
  rfl

/-- Witness for `review_count_parsing` at the digit-free text "(No reviews yet)". -/
theorem review_count_parsing_witness : parseReviewCount "(No reviews yet)" = none :=
  review_count_parsing.2 "(No reviews yet)" (by decide)

/-- C4 (confirmed): on every path of `extract_email_from_website` the number
of close calls that succeed on the auxiliary page equals the number of pages
opened (cleanup on success and failure), the function is total (every
exception inside the fetch is absorbed), and on any failing fetch step it
returns absence. -/
theorem email_resolver_resource_safety :
    ∀ env : EmailFetchEnv,
      (extract_email_from_website env).closedPages = (extract_email_from_website env).openedPages
      ∧ ((env.openOk = false ∨ env.gotoOk = false ∨ env.contentOk = false) →
          (extract_email_from_website env).email = none) := by
  intro env
  rcases env with ⟨url, o, g, c, es⟩
  cases url with
  | none => exact ⟨rfl, fun _ => rfl⟩
  | some u =>
    by_cases hu : u.isEmpty <;>
      cases o <;> cases g <;> cases c <;>
        simp [extract_email_from_website, email_fetch_try, hu]

/-- Witness for `email_resolver_resource_safety`: an exception during the
navigation of the auxiliary page still yields one close for the one open,
and the resolver returns absence. -/
theorem email_resolver_resource_safety_witness :
    (extract_email_from_website ⟨some "http://x.com", true, false, true, []⟩).closedPages
        = (extract_email_from_website ⟨some "http://x.com", true, false, true, []⟩).openedPages
    ∧ (extract_email_from_website ⟨some "http://x.com", true, false, true, []⟩).email = none :=
  ⟨(email_resolver_resource_safety ⟨some "http://x.com", true, false, true, []⟩).1,
   (email_resolver_resource_safety ⟨some "http://x.com", true, false, true, []⟩).2
     (Or.inr (Or.inl rfl))⟩

/-- C1 counterexample: two listing pages identical except that reading the
Rating element raises on the second.  On the first, Review Count parses to
12; on the second, the Rating exception aborts the shared guard block and
Review Count is left absent although the review element is present — an
exception in one field (Rating) does prevent extraction of another field
(Review Count), refuting per-field independence as claimed. -/
theorem field_guards_cex :
    (extract_place_details
        ⟨false, FieldOutcome.invisible, FieldOutcome.value "4.7",
          FieldOutcome.value "(12 reviews)", FieldOutcome.invisible, FieldOutcome.invisible,
          FieldOutcome.invisible, FieldOutcome.invisible, ⟨none, true, true, true, []⟩⟩
        "u" false).reviewCount = some 12
    ∧ (extract_place_details
        ⟨false, FieldOutcome.invisible, FieldOutcome.raise,
          FieldOutcome.value "(12 reviews)", FieldOutcome.invisible, FieldOutcome.invisible,
          FieldOutcome.invisible, FieldOutcome.invisible, ⟨none, true, true, true, []⟩⟩
        "u" false).reviewCount = none :=
  ⟨by decide, by decide⟩

/-- C1 (amended): the six guard blocks are mutually independent — each
field's value is determined by its own block's outcomes alone — but Rating
and Review Count share one guard block (so their two outcomes jointly
determine both fields, and an exception on Rating also suppresses Review
Count); the extractor is total (never raises for a missing or invisible
element) and always carries the source url. -/
theorem field_guards_independence :
    ∀ (e1 e2 : PlaceEnv) (url : String) (b : Bool),
      (e1.title = e2.title →
        (extract_place_details e1 url b).companyName
          = (extract_place_details e2 url b).companyName)
      ∧ (e1.category = e2.category →
          (extract_place_details e1 url b).category
            = (extract_place_details e2 url b).category)
      ∧ (e1.address = e2.address →
          (extract_place_details e1 url b).address
            = (extract_place_details e2 url b).address)
      ∧ (e1.phone = e2.phone →
          (extract_place_details e1 url b).phoneNumber
            = (extract_place_details e2 url b).phoneNumber)
      ∧ (e1.website = e2.website →
          (extract_place_details e1 url b).website
            = (extract_place_details e2 url b).website)
      ∧ (e1.website = e2.website → e1.emailFetch = e2.emailFetch →
          (extract_place_details e1 url b).email
            = (extract_place_details e2 url b).email)
      ∧ (e1.rating = e2.rating → e1.reviews = e2.reviews →
          (extract_place_details e1 url b).rating
              = (extract_place_details e2 url b).rating
            ∧ (extract_place_details e1 url b).reviewCount
              = (extract_place_details e2 url b).reviewCount)
      ∧ (extract_place_details e1 url b).gmapsUrl = url := by
  intro e1 e2 url b
  refine ⟨fun h => ?_, fun h => ?_, fun h => ?_, fun h => ?_, fun h => ?_,
    fun h1 h2 => ?_, fun h1 h2 => ?_, rfl⟩ <;>
    simp [extract_place_details, *]

/-- Witness for `field_guards_independence`: two pages differing only in the
title outcome still agree on Rating and Review Count. -/
theorem field_guards_independence_witness :
    (extract_place_details
        ⟨false, FieldOutcome.value "A", FieldOutcome.value "4.0",
          FieldOutcome.value "(7)", FieldOutcome.invisible, FieldOutcome.invisible,
          FieldOutcome.invisible, FieldOutcome.invisible, ⟨none, true, true, true, []⟩⟩
        "v" false).rating
      = (extract_place_details
        ⟨false, FieldOutcome.raise, FieldOutcome.value "4.0",
          FieldOutcome.value "(7)", FieldOutcome.invisible, FieldOutcome.invisible,
          FieldOutcome.invisible, FieldOutcome.invisible, ⟨none, true, true, true, []⟩⟩
        "v" false).rating :=
  ((field_guards_independence
      ⟨false, FieldOutcome.value "A", FieldOutcome.value "4.0",
        FieldOutcome.value "(7)", FieldOutcome.invisible, FieldOutcome.invisible,
        FieldOutcome.invisible, FieldOutcome.invisible, ⟨none, true, true, true, []⟩⟩
      ⟨false, FieldOutcome.raise, FieldOutcome.value "4.0",
        FieldOutcome.value "(7)", FieldOutcome.invisible, FieldOutcome.invisible,
        FieldOutcome.invisible, FieldOutcome.invisible, ⟨none, true, true, true, []⟩⟩
      "v" false).2.2.2.2.2.2.1 rfl rfl).1

/-- C2 counterexample: a navigation timeout on the search page — line 139
has no surrounding `try` — is surfaced to the caller of
`scrape_search_results` as an exception, refuting the claim that a timeout
is never surfaced by either function. -/
theorem nav_timeout_cex :
    scrape_search_results
        ⟨true, [], fun _ => false,
          fun _ => ⟨false, FieldOutcome.invisible, FieldOutcome.invisible,
            FieldOutcome.invisible, FieldOutcome.invisible, FieldOutcome.invisible,
            FieldOutcome.invisible, FieldOutcome.invisible, ⟨none, true, true, true, []⟩⟩⟩
        5 false
      = Except.error PyError.timeout := rfl

/-- C2 (amended): a navigation timeout on a listing page is recovered by
`extract_place_details` (the result does not depend on the timeout flag and
extraction proceeds), but a navigation timeout on the search page is NOT
caught by `scrape_search_results` and propagates to its caller. -/
theorem nav_timeout_handling :
    (∀ (env : PlaceEnv) (url : String) (b : Bool),
        extract_place_details { env with navTimeout := true } url b
          = extract_place_details { env with navTimeout := false } url b)
    ∧ (∀ (env : SearchEnv) (m : Nat) (b : Bool), env.navTimeout = true →
        scrape_search_results env m b = Except.error PyError.timeout) := by
  refine ⟨fun env url b => rfl, fun env m b h => ?_⟩
  simp [scrape_search_results, h]

/-- Witness for `nav_timeout_handling`: a timed-out search navigation makes
the function raise. -/
theorem nav_timeout_handling_witness :
    scrape_search_results
        ⟨true, [⟨[], true, false, false⟩], fun _ => false,
          fun _ => ⟨false, FieldOutcome.invisible, FieldOutcome.invisible,
            FieldOutcome.invisible, FieldOutcome.invisible, FieldOutcome.invisible,
            FieldOutcome.invisible, FieldOutcome.invisible, ⟨none, true, true, true, []⟩⟩⟩
        3 true
      = Except.error PyError.timeout :=
  nav_timeout_handling.2
    ⟨true, [⟨[], true, false, false⟩], fun _ => false,
      fun _ => ⟨false, FieldOutcome.invisible, FieldOutcome.invisible,
        FieldOutcome.invisible, FieldOutcome.invisible, FieldOutcome.invisible,
        FieldOutcome.invisible, FieldOutcome.invisible, ⟨none, true, true, true, []⟩⟩⟩
    3 true rfl

/-- C3 counterexample: an iteration on which both the end-of-list marker is
visible (condition b) and the stagnation threshold is reached (condition c)
stops with reason stagnation, not end-of-list: the loop body breaks at the
stagnation check (lines 178-184) before the end-of-list check (line 195) is
ever evaluated, refuting the claimed priority order (a), (b), (c), (d). -/
theorem termination_priority_cex :
    harvestStep 10 ⟨[some "a"], true, false, true⟩ ⟨["a"], ["a"], 1, 2⟩
        = StepResult.stop ⟨["a"], ["a"], 1, 3⟩ StopReason.stagnation
    ∧ (⟨[some "a"], true, false, true⟩ : ScrollSnapshot).endVisible = true :=
  ⟨by decide, rfl⟩

/-- C3 (amended): each iteration evaluates its termination conditions in
the fixed order (a) collected count ≥ target, (c) stagnation, (d) feed
container not visible, (b) end-of-list marker visible after the scroll, and
the first condition true on the iteration stops the loop (the claimed order
placed (b) second). -/
theorem termination_priority_order :
    ∀ (m : Nat) (snap : ScrollSnapshot) (st : HarvestState),
      ((addLinks m snap.hrefs st).places.length ≥ m →
        harvestStep m snap st
          = StepResult.stop (addLinks m snap.hrefs st) StopReason.targetReached)
      ∧ ((addLinks m snap.hrefs st).places.length < m →
          (updateCounters (addLinks m snap.hrefs st)).consecutive_no_new ≥ 3 →
          harvestStep m snap st
            = StepResult.stop (updateCounters (addLinks m snap.hrefs st))
                StopReason.stagnation)
      ∧ ((addLinks m snap.hrefs st).places.length < m →
          (updateCounters (addLinks m snap.hrefs st)).consecutive_no_new < 3 →
          snap.feedVisible = false →
          harvestStep m snap st
            = StepResult.stop (updateCounters (addLinks m snap.hrefs st))
                StopReason.feedNotFound)
      ∧ ((addLinks m snap.hrefs st).places.length < m →
          (updateCounters (addLinks m snap.hrefs st)).consecutive_no_new < 3 →
          snap.feedVisible = true → snap.scrollRaises = false → snap.endVisible = true →
          harvestStep m snap st
            = StepResult.stop (updateCounters (addLinks m snap.hrefs st))
                StopReason.endOfList) := by
  intro m snap st
  refine ⟨fun h1 => ?_, fun h1 h2 => ?_, fun h1 h2 h3 => ?_, fun h1 h2 h3 h4 h5 => ?_⟩
  · simp [harvestStep, h1]
  · simp [harvestStep, Nat.not_le.mpr h1, h2]
  · simp [harvestStep, Nat.not_le.mpr h1, Nat.not_le.mpr h2, scrollPhase, h3]
  · simp [harvestStep, Nat.not_le.mpr h1, Nat.not_le.mpr h2, scrollPhase, h3, h4, h5]

/-- Witness for `termination_priority_order`: a third consecutive empty
iteration stops the step with reason stagnation. -/
theorem termination_priority_order_witness :
    harvestStep 10 ⟨[], true, false, false⟩ ⟨["b"], ["b"], 1, 2⟩
      = StepResult.stop ⟨["b"], ["b"], 1, 3⟩ StopReason.stagnation :=
  (termination_priority_order 10 ⟨[], true, false, false⟩ ⟨["b"], ["b"], 1, 2⟩).2.1
    (by decide) (by decide)

/-- C5 (confirmed): three consecutive iterations yielding no new reference
stop the loop with reason stagnation — even with the target unmet, the
collected sequence (shorter than the target) is kept — and on any iteration
that adds at least one new reference and continues, the stagnation counter
is reset to zero. -/
theorem stagnation_termination :
    (∀ (m : Nat) (s1 s2 s3 : ScrollSnapshot) (rest : List ScrollSnapshot)
        (st : HarvestState),
      st.places.length < m →
      st.last_places_count = st.places.length →
      st.consecutive_no_new = 0 →
      (∀ s, s ∈ [s1, s2, s3] → ∀ h : String, some h ∈ s.hrefs →
        h.isEmpty = true ∨ h ∈ st.processed) →
      s1.feedVisible = true → s1.scrollRaises = false → s1.endVisible = false →
      s2.feedVisible = true → s2.scrollRaises = false → s2.endVisible = false →
      harvestLoop m (s1 :: s2 :: s3 :: rest) st
        = ({ st with consecutive_no_new := 3 }, StopReason.stagnation))
    ∧ (∀ (m : Nat) (snap : ScrollSnapshot) (st st1 : HarvestState),
        st.last_places_count = st.places.length →
        harvestStep m snap st = StepResult.next st1 →
        st.places.length < st1.places.length →
        st1.consecutive_no_new = 0) := by
  constructor
  · intro m s1 s2 s3 rest st hm hl hc hnone hf1 hr1 he1 hf2 hr2 he2
    have hnge : ¬st.places.length ≥ m := Nat.not_le.mpr hm
    have hnoop1 : addLinks m s1.hrefs st = st :=
      addLinks_noop m st s1.hrefs (hnone s1 (by simp))
    have hnoop2 : addLinks m s2.hrefs { st with consecutive_no_new := 1 }
        = { st with consecutive_no_new := 1 } :=
      addLinks_noop m _ s2.hrefs (fun t ht => hnone s2 (by simp) t ht)
    have hnoop3 : addLinks m s3.hrefs { st with consecutive_no_new := 2 }
        = { st with consecutive_no_new := 2 } :=
      addLinks_noop m _ s3.hrefs (fun t ht => hnone s3 (by simp) t ht)
    have step1 : harvestStep m s1 st = StepResult.next { st with consecutive_no_new := 1 } := by
      rw [harvestStep_stagnant m s1 st hm hnoop1 hl, hc]
      simp [scrollPhase, hf1, hr1, he1]
    have step2 : harvestStep m s2 { st with consecutive_no_new := 1 }
        = StepResult.next { st with consecutive_no_new := 2 } := by
      rw [harvestStep_stagnant m s2 _ (by simpa using hm) hnoop2 (by simpa using hl)]
      simp [scrollPhase, hf2, hr2, he2]
    have step3 : harvestStep m s3 { st with consecutive_no_new := 2 }
        = StepResult.stop { st with consecutive_no_new := 3 } StopReason.stagnation := by
      rw [harvestStep_stagnant m s3 _ (by simpa using hm) hnoop3 (by simpa using hl)]
      simp
    calc harvestLoop m (s1 :: s2 :: s3 :: rest) st
        = harvestLoop m (s2 :: s3 :: rest) { st with consecutive_no_new := 1 } := by
          simp [harvestLoop, hnge, step1]
      _ = harvestLoop m (s3 :: rest) { st with consecutive_no_new := 2 } := by
          simp [harvestLoop, hnge, step2]
      _ = ({ st with consecutive_no_new := 3 }, StopReason.stagnation) := by
          simp [harvestLoop, hnge, step3]
  · intro m snap st st1 hl hstep hgrow
    obtain ⟨heq, _⟩ := harvestStep_next_eq m snap st st1 hstep
    by_cases hcond : (addLinks m snap.hrefs st).places.length
        = (addLinks m snap.hrefs st).last_places_count
    · exfalso
      rw [addLinks_last_count m snap.hrefs st, hl] at hcond
      rw [heq, updateCounters_places] at hgrow
      omega
    · rw [heq]
      simp [updateCounters, hcond]

/-- Witness for `stagnation_termination`: three empty iterations on a fresh
state stop harvesting with an empty (below-target) collection. -/
theorem stagnation_termination_witness :
    harvestLoop 5 [⟨[], true, false, false⟩, ⟨[], true, false, false⟩,
        ⟨[], true, false, false⟩] initialHarvestState
      = (⟨[], [], 0, 3⟩, StopReason.stagnation) :=
  stagnation_termination.1 5 ⟨[], true, false, false⟩ ⟨[], true, false, false⟩
    ⟨[], true, false, false⟩ [] initialHarvestState (by decide) rfl rfl
    (by
      intro t ht h hh
      simp only [List.mem_cons, List.not_mem_nil, or_false] at ht
      rcases ht with rfl | rfl | rfl <;> simp at hh)
    rfl rfl rfl rfl rfl rfl

/-- C6 (confirmed): whenever the loop consumes its whole snapshot stream
(no termination condition cut it short), the collected sequence is exactly
the first-seen-order deduplication of every href rendered across the
iterations — each unique non-empty reference appears exactly once, at the
position of its first appearance — and, when no per-listing extraction
error occurs, the records returned by `scrape_search_results` are in
exactly that first-seen order. -/
theorem dedup_first_seen_order :
    ∀ (env : SearchEnv) (m : Nat) (b : Bool),
      env.navTimeout = false →
      harvestStopReason env m = StopReason.outOfSnapshots →
      (∀ u : String, env.detailRaises u = false) →
      collectedPlaces env m = firstSeenDedupAux [] (snapshotHrefs env.snapshots)
      ∧ (collectedPlaces env m).Nodup
      ∧ (∀ h : String, h ∈ collectedPlaces env m ↔
          (some h ∈ snapshotHrefs env.snapshots ∧ h.isEmpty = false))
      ∧ scrape_search_results env m b
          = Except.ok (extractAll env b (collectedPlaces env m))
      ∧ (extractAll env b (collectedPlaces env m)).map PlaceData.gmapsUrl
          = collectedPlaces env m := by
  intro env m b hnav hoos hnr
  obtain ⟨h1, _⟩ := harvestLoop_oos m env.snapshots initialHarvestState hoos
  have hcp : collectedPlaces env m = firstSeenDedupAux [] (snapshotHrefs env.snapshots) := by
    rw [collectedPlaces, h1]
    rfl
  refine ⟨hcp, ?_, ?_, ?_, ?_⟩
  · rw [hcp]
    exact firstSeenDedupAux_nodup _ _
  · intro h
    rw [hcp, mem_firstSeenDedupAux]
    simp
  · simp [scrape_search_results, hnav, collectedPlaces]
  · exact extractAll_map_gmapsUrl env b hnr _

/-- Witness for `dedup_first_seen_order`: a stream re-rendering "a" twice
and then "b" collects ["a", "b"], once each, in first-seen order. -/
theorem dedup_first_seen_order_witness :
    collectedPlaces
        ⟨false, [⟨[some "a", some "a", some "b"], true, false, false⟩], fun _ => false,
          fun _ => ⟨false, FieldOutcome.invisible, FieldOutcome.invisible,
            FieldOutcome.invisible, FieldOutcome.invisible, FieldOutcome.invisible,
            FieldOutcome.invisible, FieldOutcome.invisible, ⟨none, true, true, true, []⟩⟩⟩ 5
      = firstSeenDedupAux []
          (snapshotHrefs [⟨[some "a", some "a", some "b"], true, false, false⟩]) :=
  (dedup_first_seen_order
    ⟨false, [⟨[some "a", some "a", some "b"], true, false, false⟩], fun _ => false,
      fun _ => ⟨false, FieldOutcome.invisible, FieldOutcome.invisible,
        FieldOutcome.invisible, FieldOutcome.invisible, FieldOutcome.invisible,
        FieldOutcome.invisible, FieldOutcome.invisible, ⟨none, true, true, true, []⟩⟩⟩
    5 false rfl (by decide) (fun _ => rfl)).1

/-- C7 (confirmed): the collected count never exceeds the target — the loop
preserves the bound `places.length ≤ max_results` — and once the count
reaches the target in the middle of a DOM snapshot, processing the
remaining hrefs of that snapshot (even unseen ones) changes nothing: no
reference is added to the seen-set or the collected sequence. -/
theorem target_count_bound :
    (∀ (m : Nat) (snaps : List ScrollSnapshot) (st : HarvestState),
      st.places.length ≤ m → ((harvestLoop m snaps st).1).places.length ≤ m)
    ∧ (∀ (m : Nat) (st : HarvestState) (hrefs rest : List (Option String)),
        st.places.length < m →
        (addLinks m hrefs st).places.length ≥ m →
        addLinks m (hrefs ++ rest) st = addLinks m hrefs st) := by
  constructor
  · exact fun m snaps st h => harvestLoop_length_le m snaps st h
  · intro m st hrefs
    induction hrefs generalizing st with
    | nil =>
      intro rest hlt hge
      exfalso
      simp only [addLinks] at hge
      omega
    | cons x hrefs1 ih =>
      intro rest hlt hge
      cases x with
      | none =>
        simp only [List.cons_append, addLinks] at hge ⊢
        exact ih st rest hlt hge
      | some s =>
        by_cases he : s.isEmpty
        · simp only [List.cons_append, addLinks, he, if_true] at hge ⊢
          exact ih st rest hlt hge
        · by_cases hm : s ∈ st.processed
          · simp only [List.cons_append, addLinks, he, hm, if_false, if_true] at hge ⊢
            exact ih st rest hlt hge
          · rw [List.cons_append, addLinks_cons_new m s (hrefs1 ++ rest) st he hm]
            rw [addLinks_cons_new m s hrefs1 st he hm] at hge ⊢
            by_cases hlen : st.places.length + 1 ≥ m
            · rw [if_pos hlen, if_pos hlen]
            · rw [if_neg hlen] at hge
              rw [if_neg hlen, if_neg hlen]
              exact ih _ rest (by simp; omega) hge

/-- Witness for `target_count_bound`: with target 1, after collecting "a"
the unseen "b" in the same snapshot is not added, and the loop keeps the
bound. -/
theorem target_count_bound_witness :
    ((harvestLoop 1 [] ⟨["a"], ["a"], 1, 0⟩).1).places.length ≤ 1
    ∧ addLinks 1 [some "a", some "b"] ⟨[], [], 0, 0⟩
        = addLinks 1 [some "a"] ⟨[], [], 0, 0⟩ :=
  ⟨target_count_bound.1 1 [] ⟨["a"], ["a"], 1, 0⟩ (by decide),
   target_count_bound.2 1 ⟨[], [], 0, 0⟩ [some "a"] [some "b"] (by decide) (by decide)⟩

/-- C10 (confirmed): an exception inside the scroll step stops the step
with reason scroll-error instead of propagating, the loop terminates right
there keeping the state collected so far, and `scrape_search_results`
always returns (as `Except.ok`) the detail extraction of the collected
references whenever the search navigation itself did not time out. -/
theorem scroll_error_partial_results :
    (∀ (snap : ScrollSnapshot) (st : HarvestState),
      snap.feedVisible = true → snap.scrollRaises = true →
      scrollPhase snap st = StepResult.stop st StopReason.scrollError)
    ∧ (∀ (m : Nat) (snap : ScrollSnapshot) (rest : List ScrollSnapshot)
        (st : HarvestState),
        st.places.length < m →
        (addLinks m snap.hrefs st).places.length < m →
        (updateCounters (addLinks m snap.hrefs st)).consecutive_no_new < 3 →
        snap.feedVisible = true → snap.scrollRaises = true →
        harvestLoop m (snap :: rest) st
          = (updateCounters (addLinks m snap.hrefs st), StopReason.scrollError))
    ∧ (∀ (env : SearchEnv) (m : Nat) (b : Bool),
        env.navTimeout = false →
        scrape_search_results env m b
          = Except.ok (extractAll env b (collectedPlaces env m))) := by
  refine ⟨fun snap st hf hr => by simp [scrollPhase, hf, hr], ?_, ?_⟩
  · intro m snap rest st hg h1 h2 hf hr
    have hstep : harvestStep m snap st
        = StepResult.stop (updateCounters (addLinks m snap.hrefs st))
            StopReason.scrollError := by
      simp [harvestStep, Nat.not_le.mpr h1, Nat.not_le.mpr h2, scrollPhase, hf, hr]
    simp [harvestLoop, Nat.not_le.mpr hg, hstep]
  · intro env m b h
    simp [scrape_search_results, h, collectedPlaces]

/-- Witness for `scroll_error_partial_results`: a raising scroll step on a
state holding one collected reference terminates the loop with that
reference kept, and the run still returns results. -/
theorem scroll_error_partial_results_witness :
    scrollPhase ⟨[], true, true, false⟩ ⟨["c"], ["c"], 1, 0⟩
        = StepResult.stop ⟨["c"], ["c"], 1, 0⟩ StopReason.scrollError
    ∧ harvestLoop 5 [⟨[], true, true, false⟩] ⟨["c"], ["c"], 1, 0⟩
        = (updateCounters (addLinks 5 (⟨[], true, true, false⟩ : ScrollSnapshot).hrefs
            ⟨["c"], ["c"], 1, 0⟩), StopReason.scrollError)
    ∧ scrape_search_results
        ⟨false, [⟨[], true, true, false⟩], fun _ => false,
          fun _ => ⟨false, FieldOutcome.invisible, FieldOutcome.invisible,
            FieldOutcome.invisible, FieldOutcome.invisible, FieldOutcome.invisible,
            FieldOutcome.invisible, FieldOutcome.invisible, ⟨none, true, true, true, []⟩⟩⟩ 5 false
        = Except.ok (extractAll
            ⟨false, [⟨[], true, true, false⟩], fun _ => false,
              fun _ => ⟨false, FieldOutcome.invisible, FieldOutcome.invisible,
                FieldOutcome.invisible, FieldOutcome.invisible, FieldOutcome.invisible,
                FieldOutcome.invisible, FieldOutcome.invisible, ⟨none, true, true, true, []⟩⟩⟩
            false
            (collectedPlaces
              ⟨false, [⟨[], true, true, false⟩], fun _ => false,
                fun _ => ⟨false, FieldOutcome.invisible, FieldOutcome.invisible,
                  FieldOutcome.invisible, FieldOutcome.invisible, FieldOutcome.invisible,
                  FieldOutcome.invisible, FieldOutcome.invisible,
                  ⟨none, true, true, true, []⟩⟩⟩ 5)) :=
  ⟨scroll_error_partial_results.1 ⟨[], true, true, false⟩ ⟨["c"], ["c"], 1, 0⟩ rfl rfl,
   scroll_error_partial_results.2.1 5 ⟨[], true, true, false⟩ [] ⟨["c"], ["c"], 1, 0⟩
     (by decide) (by decide) (by decide) rfl rfl,
   scroll_error_partial_results.2.2
     ⟨false, [⟨[], true, true, false⟩], fun _ => false,
       fun _ => ⟨false, FieldOutcome.invisible, FieldOutcome.invisible,
         FieldOutcome.invisible, FieldOutcome.invisible, FieldOutcome.invisible,
         FieldOutcome.invisible, FieldOutcome.invisible, ⟨none, true, true, true, []⟩⟩⟩
     5 false rfl⟩

end Scraper
